import Mathlib

/-!
Shallow embedding of the `css-selector-finder` core:
`CSSPathStep` (step builder: identifier escaping, sibling inspection,
optimized-shortcut detection) and `CSSSelectorFinder` (path ascender).

DOM strings are modelled as Lean `String`s (lists of Unicode scalar values);
JavaScript exceptions are modelled with `Except String`; `null`-able values
with `Option`.
-/

/-- Node-type discriminator: `Node.ELEMENT_NODE`, `Node.DOCUMENT_NODE`,
or any other node type (text, comment, ...). -/
inductive NodeKind where
  | element
  | document
  | text
deriving DecidableEq, Repr

/-- A DOM node: node type, tag name (as stored, possibly upper-case),
attribute list, and ordered child-node list. -/
inductive DNode where
  | mk (kind : NodeKind) (tagName : String) (attrs : List (String × String))
      (childNodes : List DNode)

/-- Node-type discriminator of a node (`node.nodeType`). -/
def DNode.kind : DNode → NodeKind
  | .mk k _ _ _ => k

/-- Tag name of a node (`node.tagName`). -/
def DNode.tagName : DNode → String
  | .mk _ t _ _ => t

/-- Attribute list of a node. -/
def DNode.attrs : DNode → List (String × String)
  | .mk _ _ a _ => a

/-- Ordered child-node list of a node (`node.childNodes`). -/
def DNode.childNodes : DNode → List DNode
  | .mk _ _ _ c => c

/-- `node.getAttribute(name)`: the attribute's value, or `none` when absent. -/
def DNode.getAttr (n : DNode) (name : String) : Option String :=
  n.attrs.lookup name

/-- JavaScript truthiness of a `string | null` attribute value:
`null` and the empty string are falsy. -/
def attrTruthy (o : Option String) : Bool :=
  o.getD "" != ""

/-- `String.prototype.toLowerCase()` (ASCII case folding), written with a
structurally recursive `List.map` so that concrete strings evaluate inside
the kernel. -/
def strToLower (s : String) : String :=
  ⟨s.data.map Char.toLower⟩

/-- `DOMNodePathStep`: one selector fragment plus the `optimized` flag. -/
structure DOMNodePathStep where
  value : Option String
  optimized : Bool
deriving DecidableEq, Repr

/-! ## Identifier escaping (`CSSPathStep.escapeIdentifierIfNeeded` and helpers) -/

/-- One character of the character class `[a-zA-Z0-9_-]`. -/
def identBodyChar (c : Char) : Bool :=
  c.isAlpha || c.isDigit || c == '_' || c == '-'

/-- `CSSPathStep.isCSSIdentChar`: `[a-zA-Z0-9_-]`, or code point `>= 0xa0`. -/
def isCSSIdentChar (c : Char) : Bool :=
  identBodyChar c || decide (0xa0 ≤ c.toNat)

/-- `CSSPathStep.isCSSIdentifier`: the regex `^-?[a-zA-Z_][a-zA-Z0-9_-]*$`.
The optional leading `-` is consumed when present; `[a-zA-Z_]` does not
contain `-`, so this deterministic reading matches the regex. -/
def isCSSIdentifier (value : String) : Bool :=
  match value.data with
  | [] => false
  | c :: cs =>
    if c == '-' then
      match cs with
      | [] => false
      | d :: ds => (d.isAlpha || d == '_') && ds.all identBodyChar
    else (c.isAlpha || c == '_') && cs.all identBodyChar

/-- `CSSPathStep.toHexByte`: `c.charCodeAt(0).toString(16)` (lower-case hex),
left-padded with `'0'` when it is a single digit. -/
def toHexByte (c : Char) : List Char :=
  let hexByte := Nat.toDigits 16 c.toNat
  if hexByte.length == 1 then '0' :: hexByte else hexByte

/-- `CSSPathStep.escapeAsciiChar`: `'\\' + toHexByte(c) + (isLast ? '' : ' ')`. -/
def escapeAsciiChar (c : Char) (isLast : Bool) : List Char :=
  '\\' :: toHexByte c ++ (if isLast then [] else [' '])

/-- Whether the JavaScript regex `.` (no `s` flag) matches a character:
everything except the line terminators LF, CR, U+2028, U+2029. -/
def isDotMatched (c : Char) : Bool :=
  !(c == '\n' || c == '\r' || c.toNat == 0x2028 || c.toNat == 0x2029)

/-- The test `/^(?:[0-9]|-[0-9-]?)/.test(ident)`.  Because `[0-9-]?` is
optional, the regex matches exactly when the string starts with a digit
or with `-`. -/
def shouldEscapeFirstTest (ident : String) : Bool :=
  match ident.data with
  | [] => false
  | c :: _ => c.isDigit || c == '-'

/-- The callback of `ident.replace(/./g, ...)`, folded over the characters:
`i` is the current index; characters not matched by `.` are left in place,
matched characters go through the replacement function. -/
def escapeReplace (shouldEscapeFirst : Bool) (lastIndex : Nat) :
    Nat → List Char → List Char
  | _, [] => []
  | i, c :: cs =>
    (if isDotMatched c then
      (if (shouldEscapeFirst && i == 0) || !isCSSIdentChar c then
        escapeAsciiChar c (i == lastIndex)
      else [c])
    else [c]) ++ escapeReplace shouldEscapeFirst lastIndex (i + 1) cs

/-- `CSSPathStep.escapeIdentifierIfNeeded`. -/
def escapeIdentifierIfNeeded (ident : String) : String :=
  if isCSSIdentifier ident then ident
  else
    let shouldEscapeFirst := shouldEscapeFirstTest ident
    let lastIndex := ident.length - 1
    ⟨escapeReplace shouldEscapeFirst lastIndex 0 ident.data⟩

/-- `CSSPathStep.idSelector`: `'#' + escapeIdentifierIfNeeded(id)`. -/
def idSelector (id : String) : String :=
  "#" ++ escapeIdentifierIfNeeded id

/-! ## Class names and sibling inspection -/

/-- The whitespace class `\s` of JavaScript regexes. -/
def isJsSpace (c : Char) : Bool :=
  c == ' ' || c == '\t' || c == '\n' || c == '\r' ||
  c.toNat == 0x0b || c.toNat == 0x0c || c.toNat == 0xa0 || c.toNat == 0x1680 ||
  (0x2000 ≤ c.toNat && c.toNat ≤ 0x200a) ||
  c.toNat == 0x2028 || c.toNat == 0x2029 || c.toNat == 0x202f ||
  c.toNat == 0x205f || c.toNat == 0x3000 || c.toNat == 0xfeff

/-- Split a character list at every character satisfying `p` (the current
piece is accumulated in reverse in `cur`).  Splitting at every single
whitespace character yields the same result as splitting on the runs matched
by `/\s+/g` once empty pieces are dropped, which `filter(Boolean)` does
immediately below. -/
def splitChars (p : Char → Bool) : List Char → List Char → List String
  | cur, [] => [⟨cur.reverse⟩]
  | cur, c :: cs =>
    if p c then ⟨cur.reverse⟩ :: splitChars p [] cs
    else splitChars p (c :: cur) cs

/-- `CSSPathStep.prefixedElementClassNames`: split the `class` attribute on
`/\s+/g`, drop empty pieces (`filter(Boolean)`), and prefix each name with
`'$'` (so `__proto__` is safe as an object-map key). -/
def prefixedElementClassNames (node : DNode) : List String :=
  let classAttribute := node.getAttr "class"
  if attrTruthy classAttribute = false then []
  else
    ((splitChars isJsSpace [] (classAttribute.getD "").data).filter (· != "")).map
      (fun name => "$" ++ name)

/-- The inner `for (const siblingClass of siblingClassNamesArray)` loop.
State: the (spliced) array of the element's remaining prefixed class names.
`ownClassNameCount` always equals the current length of that array, so the
`!--ownClassNameCount` break fires exactly when the array becomes empty;
the returned Bool is the resulting `needsNthChild` (entered with `false`). -/
def siblingClassScan : List String → List String → List String × Bool
  | remaining, [] => (remaining, false)
  | remaining, siblingClass :: rest =>
    if remaining.contains siblingClass then
      let remaining' := remaining.erase siblingClass
      if remaining' = [] then (remaining', true)
      else siblingClassScan remaining' rest
    else siblingClassScan remaining rest

/-- The `for (let i = 0; ...; ++i)` loop of `getWritingMode`, folded over the
element children of the parent, each paired with its index in
`parent.childNodes` (this index plays the role of object identity for the
`sibling === this.node` test).  The guard `(ownIndex === -1 || !needsNthChild)`
is re-checked before every entry; non-element `childNodes` entries are not in
the collection, so the `nodeType` test in the body never skips. -/
def siblingScan (nodeName : String) (selfIdx : Nat) :
    List (Nat × DNode) → Int → Bool → Int → List String →
    Bool × Int × List String
  | [], _, needsNthChild, ownIndex, remaining => (needsNthChild, ownIndex, remaining)
  | (j, sibling) :: rest, elementIndex, needsNthChild, ownIndex, remaining =>
    if ownIndex ≠ -1 ∧ needsNthChild = true then (needsNthChild, ownIndex, remaining)
    else
      let elementIndex' := elementIndex + 1
      if j = selfIdx then
        siblingScan nodeName selfIdx rest elementIndex' needsNthChild elementIndex' remaining
      else if needsNthChild = true then
        siblingScan nodeName selfIdx rest elementIndex' needsNthChild ownIndex remaining
      else if strToLower sibling.tagName ≠ nodeName then
        siblingScan nodeName selfIdx rest elementIndex' needsNthChild ownIndex remaining
      else if remaining = [] then
        siblingScan nodeName selfIdx rest elementIndex' true ownIndex remaining
      else
        let scanned := siblingClassScan remaining (prefixedElementClassNames sibling)
        siblingScan nodeName selfIdx rest elementIndex' scanned.2 ownIndex scanned.1

/-- The element children of a node, each paired with its index in
`childNodes` (the identity used for the `===` comparison), starting the
index count at `k`. -/
def elementChildrenFrom : Nat → List DNode → List (Nat × DNode)
  | _, [] => []
  | k, c :: cs =>
    if c.kind = .element then (k, c) :: elementChildrenFrom (k + 1) cs
    else elementChildrenFrom (k + 1) cs

/-- `parent.children`: the element children in document order. -/
def DNode.children (p : DNode) : List (Nat × DNode) :=
  elementChildrenFrom 0 p.childNodes

/-- The two-valued writing-mode enum of `CSSPathStep`. -/
inductive WritingMode where
  | NTH_CHILD
  | TAGNAME_AND_CLASSNAME
deriving DecidableEq, Repr

/-- The record returned by `CSSPathStep.getWritingMode`. -/
structure WritingModeResult where
  mode : WritingMode
  index : Int
  ownClassNames : List String
deriving DecidableEq, Repr

/-- `CSSPathStep.getWritingMode`, for the element `node` sitting at index
`selfIdx` of `parent.childNodes`. -/
def getWritingMode (node parent : DNode) (selfIdx : Nat) : WritingModeResult :=
  let nodeName := strToLower node.tagName
  let prefixedOwnClassNames := prefixedElementClassNames node
  let scanned := siblingScan nodeName selfIdx parent.children (-1) false (-1)
      prefixedOwnClassNames
  { mode := if scanned.1 = true then .NTH_CHILD else .TAGNAME_AND_CLASSNAME,
    index := scanned.2.1,
    ownClassNames := scanned.2.2 }

/-! ## Step construction -/

/-- `CSSPathStep.getOptimizedValue`, with the node's `parentNode`. -/
def getOptimizedValue (node : DNode) (parentNode : Option DNode) :
    Except String (Option DOMNodePathStep) :=
  let id := node.getAttr "id"
  if attrTruthy id then .ok (some ⟨some (idSelector (id.getD "")), true⟩)
  else
    let nodeName := strToLower node.tagName
    if nodeName ∈ (["html", "head", "body"] : List String) then
      .ok (some ⟨some nodeName, true⟩)
    else
      match parentNode with
      | none => .ok (some ⟨some nodeName, true⟩)
      | some parent =>
        if parent.kind = .document then
          .error "The child of a Document must be <html></html>"
        else .ok none

/-- The `input[type="..."]` decoration of `computeStep` (lines 225-232).
The second `toLowerCase()` of the source (`nodeName.toLowerCase()`, where
`nodeName` is already lower-cased) is a no-op and is not repeated here. -/
def inputTypeDecoration (node : DNode) (isTargetNode : Bool) : String :=
  if isTargetNode &&
      strToLower node.tagName == "input" &&
      attrTruthy (node.getAttr "type") &&
      !attrTruthy (node.getAttr "id") &&
      !attrTruthy (node.getAttr "class") then
    "[type=\"" ++ (node.getAttr "type").getD "" ++ "\"]"
  else ""

/-- `CSSPathStep.computeStep`.  The ancestor context `ancs` lists the node's
ancestors nearest-first, each as (index in the parent's `childNodes`, parent
node); only its head (the `parentNode` link) is consulted. -/
def computeStep (node : DNode) (ancs : List (Nat × DNode)) (isTargetNode : Bool) :
    Except String DOMNodePathStep :=
  if node.kind ≠ .element then .error "Element is not one."
  else
    match getOptimizedValue node (ancs.head?.map Prod.snd) with
    | .error e => .error e
    | .ok (some optimizedValue) => .ok optimizedValue
    | .ok none =>
      match ancs.head? with
      | none => .error "unreachable: sibling enumeration requires a parent"
      | some (selfIdx, parent) =>
        let nodeName := strToLower node.tagName
        let wm := getWritingMode node parent selfIdx
        let base := nodeName ++ inputTypeDecoration node isTargetNode
        let result :=
          match wm.mode with
          | .NTH_CHILD => base ++ ":nth-child(" ++ toString (wm.index + 1) ++ ")"
          | .TAGNAME_AND_CLASSNAME => base
            -- `for (const prefixedName in prefixedOwnClassNames.values())`
            -- enumerates the enumerable property names of an Array Iterator
            -- object; there are none, so the body never runs and no class
            -- suffix is ever appended.
        .ok ⟨some result, false⟩

/-! ## Path ascent (`CSSSelectorFinder`) -/

/-- The `while (contextNode)` loop of `CSSSelectorFinder.cssPath`, building
the step list target-first (before the final `reverse`).  `isTarget` models
`contextNode === this.node`, which holds exactly on the first iteration
because the cursor strictly ascends afterwards.  `contextNode.parentElement`
is the head ancestor when it is an element, `null` otherwise. -/
def cssPathLoop : DNode → List (Nat × DNode) → Bool →
    Except String (List DOMNodePathStep)
  | node, [], isTarget =>
    match computeStep node [] isTarget with
    | .error e => .error e
    | .ok step =>
      match step.value with
      | none => .ok []
      | some _ =>
        -- with no ancestor context, `parentElement` is null: the loop stops
        -- after this iteration whether or not the step is optimized
        if step.optimized then .ok [step] else .ok [step]
  | node, (i, parent) :: rest, isTarget =>
    match computeStep node ((i, parent) :: rest) isTarget with
    | .error e => .error e
    | .ok step =>
      match step.value with
      | none => .ok []
      | some _ =>
        if step.optimized then .ok [step]
        else if parent.kind = .element then
          match cssPathLoop parent rest false with
          | .error e => .error e
          | .ok tailSteps => .ok (step :: tailSteps)
        else .ok [step]

/-- `CSSSelectorFinder.cssPath`: empty for non-element targets, else the
reversed (root-first) result of the ascent loop. -/
def cssPath (node : DNode) (ancs : List (Nat × DNode)) :
    Except String (List DOMNodePathStep) :=
  if node.kind ≠ .element then .ok []
  else (cssPathLoop node ancs true).map List.reverse

/-- `CSSSelectorFinder`: the stored minimum-specificity constraint and the
computed path. -/
structure CSSSelectorFinder where
  minSpecificity : List Int
  path : List DOMNodePathStep

/-- The `CSSSelectorFinder` constructor (which runs `cssPath` eagerly and
propagates its exception). -/
def CSSSelectorFinder.make (node : DNode) (ancs : List (Nat × DNode))
    (minSpecificity : List Int) : Except String CSSSelectorFinder :=
  (cssPath node ancs).map (fun p => ⟨minSpecificity, p⟩)

/-- `CSSSelectorFinder.toString`: join the step values with `' > '`
(`Array.prototype.join` renders a `null` entry as the empty string). -/
def CSSSelectorFinder.toString (f : CSSSelectorFinder) : String :=
  String.intercalate " > " (f.path.map (fun step => step.value.getD ""))

/-! ## Derived notions used to state the claims -/

/-- Number of element nodes in a child-node list (used for the
"zero-based position among the parent's element children"). -/
def elemCount : List DNode → Nat
  | [] => 0
  | c :: cs => (if c.kind = .element then 1 else 0) + elemCount cs

/-- Loop-iteration counter mirroring `cssPathLoop` one-for-one: every entry
into the `while` body counts as one iteration (also when that iteration
throws or breaks). -/
def cssPathIters : DNode → List (Nat × DNode) → Bool → Nat
  | node, [], isTarget =>
    match computeStep node [] isTarget with
    | .error _ => 1
    | .ok step =>
      match step.value with
      | none => 1
      | some _ => if step.optimized then 1 else 1
  | node, (i, parent) :: rest, isTarget =>
    match computeStep node ((i, parent) :: rest) isTarget with
    | .error _ => 1
    | .ok step =>
      match step.value with
      | none => 1
      | some _ =>
        if step.optimized then 1
        else if parent.kind = .element then 1 + cssPathIters parent rest false
        else 1

/-- Number of nodes on the `parentElement` chain starting at the node itself
(the depth bound of the ascent). -/
def elementDepth : DNode → List (Nat × DNode) → Nat
  | _, [] => 1
  | _, (_, parent) :: rest =>
    if parent.kind = .element then 1 + elementDepth parent rest else 1

/-- The `:nth-child(...)` / class suffix that `computeStep` appends after
the tag name and the optional attribute decoration. -/
def nthOrClassSuffix (node parent : DNode) (selfIdx : Nat) : String :=
  match (getWritingMode node parent selfIdx).mode with
  | .NTH_CHILD =>
    ":nth-child(" ++ toString ((getWritingMode node parent selfIdx).index + 1) ++ ")"
  | .TAGNAME_AND_CLASSNAME => ""

/-! ## Definitions taken from the claims' words (for refinement claims) -/

/-- One character of `[A-Za-z0-9_-]`, as the words of claim C4 put it. -/
def c4IdentChar (c : Char) : Bool :=
  c.isAlpha || c.isDigit || c == '_' || c == '-'

/-- Claim C4's per-character escape condition: outside `[A-Za-z0-9_-]` and
code point below `0xA0`. -/
def c4EscapableChar (c : Char) : Bool :=
  !c4IdentChar c && decide (c.toNat < 0xa0)

/-- Claim C4's force-escape condition as stated: the string begins with a
digit, or with `-` followed by a digit or `-`. -/
def c4ForceFirst (ident : String) : Bool :=
  match ident.data with
  | [] => false
  | [c] => c.isDigit
  | c :: d :: _ => c.isDigit || (c == '-' && (d.isDigit || d == '-'))

/-- Claim C4's character-by-character transformation as stated (every
character is examined; escape = `\` + two lower-case hex digits + a trailing
space unless last). -/
def c4EscapeChars (force : Bool) (lastIndex : Nat) : Nat → List Char → List Char
  | _, [] => []
  | i, c :: cs =>
    (if (force && i == 0) || c4EscapableChar c then
      '\\' :: toHexByte c ++ (if i == lastIndex then [] else [' '])
    else [c]) ++ c4EscapeChars force lastIndex (i + 1) cs

/-- The escaping function exactly as claim C4 states it. -/
def c4EscapeSpec (ident : String) : String :=
  if isCSSIdentifier ident then ident
  else ⟨c4EscapeChars (c4ForceFirst ident) (ident.length - 1) 0 ident.data⟩

/-- Amended force-escape condition: the string begins with a digit or with
`-` (the `[0-9-]?` after `-` in the source regex is optional). -/
def c4ForceFirstAmended (ident : String) : Bool :=
  match ident.data with
  | [] => false
  | c :: _ => c.isDigit || c == '-'

/-- Amended character-by-character transformation: the line terminators
LF, CR, U+2028, U+2029 are not visited by the `/./g` scan and pass through
unchanged; every other character follows claim C4's rule. -/
def c4EscapeCharsAmended (force : Bool) (lastIndex : Nat) :
    Nat → List Char → List Char
  | _, [] => []
  | i, c :: cs =>
    (if c == '\n' || c == '\r' || c.toNat == 0x2028 || c.toNat == 0x2029 then [c]
    else if (force && i == 0) || c4EscapableChar c then
      '\\' :: toHexByte c ++ (if i == lastIndex then [] else [' '])
    else [c]) ++ c4EscapeCharsAmended force lastIndex (i + 1) cs

/-- The escaping function as amended claim C4 states it. -/
def c4EscapeSpecAmended (ident : String) : String :=
  if isCSSIdentifier ident then ident
  else ⟨c4EscapeCharsAmended (c4ForceFirstAmended ident) (ident.length - 1) 0 ident.data⟩

/-- Claim C6's decoration condition (amended for JavaScript truthiness):
target step, lower-cased tag `input`, non-empty `type` attribute, `id` and
`class` attributes absent or empty. -/
def c6DecorationCond (node : DNode) (isTarget : Bool) : Bool :=
  isTarget && strToLower node.tagName == "input" &&
    ((node.getAttr "type").getD "" != "") &&
    ((node.getAttr "id").getD "" == "") &&
    ((node.getAttr "class").getD "" == "")

/-! ## Example documents (fixtures for concrete evaluations) -/

/-- `<p>A</p>` -/
def exP1 : DNode := .mk .element "P" [] [.mk .text "" [] []]

/-- `<p class="hit">B</p>` -/
def exP2 : DNode := .mk .element "P" [("class", "hit")] [.mk .text "" [] []]

/-- `<p>C</p>` -/
def exP3 : DNode := .mk .element "P" [] [.mk .text "" [] []]

/-- `<div><p>A</p><p class="hit">B</p><p>C</p></div>` -/
def exDiv : DNode := .mk .element "DIV" [] [exP1, exP2, exP3]

/-- `<body>` wrapping `exDiv`. -/
def exBody : DNode := .mk .element "BODY" [] [exDiv]

/-- `<html>` wrapping `exBody`. -/
def exHtml : DNode := .mk .element "HTML" [] [exBody]

/-- The document node above `exHtml`. -/
def exDoc : DNode := .mk .document "" [] [exHtml]

/-- Ancestor context of the second `<p>` (class `hit`). -/
def exAncsP2 : List (Nat × DNode) := [(1, exDiv), (0, exBody), (0, exHtml), (0, exDoc)]

/-- `<input type="text"/>` (no id, no class). -/
def exInputText : DNode := .mk .element "INPUT" [("type", "text")] []

/-- `<input type="password"/>` (no id, no class). -/
def exInputPassword : DNode := .mk .element "INPUT" [("type", "password")] []

/-- `<form><input type="text"/><input type="password"/></form>` -/
def exForm : DNode := .mk .element "FORM" [] [exInputText, exInputPassword]

/-- A detached `<body>` element placed directly under a document node. -/
def exBodyUnderDoc : DNode := .mk .element "BODY" [] []

/-- A document node whose only child is `exBodyUnderDoc`. -/
def exDocOverBody : DNode := .mk .document "" [] [exBodyUnderDoc]

/-- A `<div>` element placed directly under a document node. -/
def exDivUnderDoc : DNode := .mk .element "DIV" [] []

/-- A document node whose only child is `exDivUnderDoc`. -/
def exDocOverDiv : DNode := .mk .document "" [] [exDivUnderDoc]

/-- A text node (non-element target). -/
def exTextNode : DNode := .mk .text "" [] []

/-! ## Helper lemmas -/

/-- The only error `getOptimizedValue` can produce is the document-child one. -/
theorem getOptimizedValue_error_msg (node : DNode) (parentNode : Option DNode)
    (e : String) (h : getOptimizedValue node parentNode = .error e) :
    e = "The child of a Document must be <html></html>" := by
  simp only [getOptimizedValue] at h
  split at h
  · simp at h
  · split at h
    · simp at h
    · split at h
      · simp at h
      · split at h
        · simp only [Except.error.injEq] at h
          exact h.symm
        · simp at h

/-- When `getOptimizedValue` falls through (`ok none`), the parent link is
non-null and the parent is not a document node. -/
theorem getOptimizedValue_ok_none (node : DNode) (parentNode : Option DNode)
    (h : getOptimizedValue node parentNode = .ok none) :
    ∃ parent, parentNode = some parent ∧ parent.kind ≠ NodeKind.document := by
  simp only [getOptimizedValue] at h
  split at h
  · simp at h
  · split at h
    · simp at h
    · split at h
      · simp at h
      · rename_i parent
        split at h
        · simp at h
        · exact ⟨parent, rfl, by assumption⟩

/-! ## Claim theorems -/

/-- C1 (evidence for the source slip): for the spec's scenario tree
`<html><body><div><p>A</p><p class="hit">B</p><p>C</p></div></body></html>`
with the second `<p>` as target, the step for the target is decided in
TAGNAME_AND_CLASSNAME mode with surviving class `hit`, yet the rendered
selector is `body > div > p` — the `for...in` over the class-iterator object
never runs, so no `.hit` suffix is emitted (the spec requires
`body > div > p.hit`). -/
theorem c1_tagname_classname_omits_classes :
    (getWritingMode exP2 exDiv 1).mode = WritingMode.TAGNAME_AND_CLASSNAME ∧
    (getWritingMode exP2 exDiv 1).ownClassNames = ["$hit"] ∧
    (CSSSelectorFinder.make exP2 exAncsP2 [0, 0, 0, 0]).map CSSSelectorFinder.toString =
      .ok "body > div > p" :=
  ⟨rfl, rfl, rfl⟩

/-- C2 (counterexample): a `<body>` element sitting directly under the
document node has a non-`html` tag, yet `computeStep` returns an optimized
step instead of throwing — the `html`/`head`/`body` shortcut fires before
the document-parent check. -/
theorem c2_counterexample :
    exDocOverBody.kind = NodeKind.document ∧
    strToLower exBodyUnderDoc.tagName ≠ "html" ∧
    computeStep exBodyUnderDoc [(0, exDocOverBody)] true =
      .ok ⟨some "body", true⟩ :=
  ⟨rfl, by decide, rfl⟩

/-- C2 (amended): for every element whose parent is the document node, whose
`id` attribute is absent or empty, and whose lower-cased tag is none of
`html`, `head`, `body`, the step builder throws the structural error
"The child of a Document must be <html></html>". -/
theorem c2_document_child_throws (node parent : DNode) (selfIdx : Nat)
    (rest : List (Nat × DNode)) (isTarget : Bool)
    (helem : node.kind = NodeKind.element)
    (hid : attrTruthy (node.getAttr "id") = false)
    (hhtml : strToLower node.tagName ≠ "html")
    (hhead : strToLower node.tagName ≠ "head")
    (hbody : strToLower node.tagName ≠ "body")
    (hdoc : parent.kind = NodeKind.document) :
    computeStep node ((selfIdx, parent) :: rest) isTarget =
      .error "The child of a Document must be <html></html>" := by
  have hopt : getOptimizedValue node (some parent) =
      .error "The child of a Document must be <html></html>" := by
    simp [getOptimizedValue, hid, hhtml, hhead, hbody, hdoc]
  simp [computeStep, helem, hopt]

/-- C2 (witness): a `<div>` with no attributes directly under a document
node makes the step builder throw. -/
theorem c2_document_child_throws_witness :
    exDivUnderDoc.kind = NodeKind.element ∧ exDocOverDiv.kind = NodeKind.document ∧
    computeStep exDivUnderDoc [(0, exDocOverDiv)] true =
      .error "The child of a Document must be <html></html>" :=
  ⟨rfl, rfl,
    c2_document_child_throws exDivUnderDoc exDocOverDiv 0 [] true rfl rfl
      (by decide) (by decide) (by decide) rfl⟩

/-- C7: a non-element target yields an empty path and renders as the empty
string, with no error. -/
theorem c7_non_element_empty_path (node : DNode) (ancs : List (Nat × DNode))
    (minSpec : List Int) (h : node.kind ≠ NodeKind.element) :
    cssPath node ancs = .ok [] ∧
    (CSSSelectorFinder.make node ancs minSpec).map CSSSelectorFinder.toString =
      .ok "" := by
  have hp : cssPath node ancs = .ok [] := by simp [cssPath, h]
  have hs : CSSSelectorFinder.toString ⟨minSpec, []⟩ = "" := rfl
  refine ⟨hp, ?_⟩
  simp [CSSSelectorFinder.make, hp, hs, Except.map]

/-- C7 (witness): a text node as target. -/
theorem c7_non_element_empty_path_witness :
    exTextNode.kind ≠ NodeKind.element ∧ cssPath exTextNode [] = .ok [] :=
  ⟨by decide, (c7_non_element_empty_path exTextNode [] [0, 0, 0, 0] (by decide)).1⟩

/-- C8: the minimum-specificity argument influences neither the step list
nor the rendered selector. -/
theorem c8_min_specificity_irrelevant (node : DNode) (ancs : List (Nat × DNode))
    (m₁ m₂ : List Int) :
    (CSSSelectorFinder.make node ancs m₁).map CSSSelectorFinder.path =
      (CSSSelectorFinder.make node ancs m₂).map CSSSelectorFinder.path ∧
    (CSSSelectorFinder.make node ancs m₁).map CSSSelectorFinder.toString =
      (CSSSelectorFinder.make node ancs m₂).map CSSSelectorFinder.toString := by
  cases h : cssPath node ancs <;>
    simp [CSSSelectorFinder.make, h, CSSSelectorFinder.toString, Except.map]

/-- C10: whenever `getOptimizedValue` falls through to sibling inspection
(`ok none`), the parent link is non-null and not a document node; hence the
unchecked `parentNode` dereference of `getWritingMode` is never reached
without a parent (`computeStep` never produces the unreachable-dereference
sentinel error). -/
theorem c10_parent_nonnull_nondocument :
    (∀ (node : DNode) (parentNode : Option DNode),
        getOptimizedValue node parentNode = .ok none →
        ∃ parent, parentNode = some parent ∧ parent.kind ≠ NodeKind.document) ∧
    (∀ (node : DNode) (ancs : List (Nat × DNode)) (isTarget : Bool),
        computeStep node ancs isTarget ≠
          .error "unreachable: sibling enumeration requires a parent") := by
  constructor
  · exact getOptimizedValue_ok_none
  · intro node ancs isTarget
    unfold computeStep
    by_cases he : node.kind = NodeKind.element
    · rw [if_neg (not_not_intro he)]
      cases hga : getOptimizedValue node (ancs.head?.map Prod.snd) with
      | error e =>
        have hmsg := getOptimizedValue_error_msg node (ancs.head?.map Prod.snd) e hga
        subst hmsg
        intro hc
        injection hc with hs
        revert hs
        decide
      | ok ov =>
        cases ov with
        | some st => simp
        | none =>
          obtain ⟨parent, hp, -⟩ :=
            getOptimizedValue_ok_none node (ancs.head?.map Prod.snd) hga
          cases ancs with
          | nil => simp at hp
          | cons a rest => simp
    · rw [if_pos he]
      intro hc
      injection hc with hs
      revert hs
      decide

/-- C10 (witness): the second `<p>` of the scenario tree falls through to
sibling inspection, and its parent `<div>` is a non-document node. -/
theorem c10_parent_nonnull_nondocument_witness :
    getOptimizedValue exP2 (some exDiv) = .ok none ∧
    ∃ parent, (some exDiv) = some parent ∧ parent.kind ≠ NodeKind.document :=
  ⟨rfl, c10_parent_nonnull_nondocument.1 exP2 (some exDiv) rfl⟩

/-- Outside `[a-zA-Z0-9_-]` with code point below `0xA0` is exactly the
negation of `isCSSIdentChar`. -/
theorem not_isCSSIdentChar (c : Char) : (!isCSSIdentChar c) = c4EscapableChar c := by
  unfold isCSSIdentChar c4EscapableChar c4IdentChar identBodyChar
  rw [Bool.not_or]
  congr 1
  rw [← decide_not, decide_eq_decide]
  exact Nat.not_le

/-- The per-character scan of the source equals the amended per-character
rule of claim C4. -/
theorem escapeReplace_eq_amended (force : Bool) (lastIndex : Nat) :
    ∀ (cs : List Char) (i : Nat),
      escapeReplace force lastIndex i cs = c4EscapeCharsAmended force lastIndex i cs := by
  intro cs
  induction cs with
  | nil => intro i; rfl
  | cons c cs ih =>
    intro i
    simp only [escapeReplace, c4EscapeCharsAmended, ih]
    congr 1
    cases hd : (c == '\n' || c == '\r' || c.toNat == 0x2028 || c.toNat == 0x2029) with
    | true => simp [isDotMatched, hd]
    | false => simp [isDotMatched, hd, escapeAsciiChar, not_isCSSIdentChar]

/-- C4 (counterexample): on `"-a.b"` — not a bare identifier, starting with
`-` followed by a letter — the claim's rule leaves the leading `-` alone
(`-a\2e b`), but the source force-escapes it (`\2d a\2e b`) because the
`[0-9-]?` in `/^(?:[0-9]|-[0-9-]?)/` is optional. -/
theorem c4_counterexample :
    escapeIdentifierIfNeeded "-a.b" = "\\2d a\\2e b" ∧
    c4EscapeSpec "-a.b" = "-a\\2e b" ∧
    escapeIdentifierIfNeeded "-a.b" ≠ c4EscapeSpec "-a.b" :=
  ⟨rfl, rfl, by decide⟩

/-- C4 (amended): a bare identifier (`^-?[A-Za-z_][A-Za-z0-9_-]*$`) is
returned unchanged; otherwise every character outside `[A-Za-z0-9_-]` with
code point below `0xA0` — except the line terminators LF, CR, U+2028,
U+2029, which the `/./g` scan never visits — is replaced by `\` plus the
two-hex-digit lower-case byte plus a trailing space unless it is the last
character; the first character is additionally force-escaped exactly when
the string begins with a digit or with `-`; characters at or above `0xA0`
pass through unescaped. -/
theorem c4_escape_characterization (ident : String) :
    escapeIdentifierIfNeeded ident = c4EscapeSpecAmended ident := by
  unfold escapeIdentifierIfNeeded c4EscapeSpecAmended
  cases h : isCSSIdentifier ident with
  | true => simp [h]
  | false =>
    have hforce : shouldEscapeFirstTest ident = c4ForceFirstAmended ident := rfl
    simp only [h, Bool.false_eq_true, if_false]
    rw [hforce, escapeReplace_eq_amended]

/-- In the (target-first) list built by the ascent loop, every step except
possibly the last one pushed has `optimized = false`: the loop breaks right
after pushing an optimized step. -/
theorem cssPathLoop_dropLast_not_optimized :
    ∀ (ancs : List (Nat × DNode)) (node : DNode) (isTarget : Bool)
      (l : List DOMNodePathStep),
      cssPathLoop node ancs isTarget = .ok l →
      ∀ st ∈ l.dropLast, st.optimized = false := by
  intro ancs
  induction ancs with
  | nil =>
    intro node isTarget l h st hst
    simp only [cssPathLoop] at h
    cases hcs : computeStep node [] isTarget with
    | error e =>
      simp only [hcs] at h
      exact Except.noConfusion h
    | ok step =>
      simp only [hcs] at h
      cases hv : step.value with
      | none =>
        simp only [hv] at h
        injection h with h'
        subst h'
        simp at hst
      | some v =>
        simp only [hv] at h
        rw [ite_self] at h
        injection h with h'
        subst h'
        simp at hst
  | cons a rest ih =>
    intro node isTarget l h st hst
    obtain ⟨i, parent⟩ := a
    simp only [cssPathLoop] at h
    cases hcs : computeStep node ((i, parent) :: rest) isTarget with
    | error e =>
      simp only [hcs] at h
      exact Except.noConfusion h
    | ok step =>
      simp only [hcs] at h
      cases hv : step.value with
      | none =>
        simp only [hv] at h
        injection h with h'
        subst h'
        simp at hst
      | some v =>
        simp only [hv] at h
        by_cases hopt : step.optimized = true
        · rw [if_pos hopt] at h
          injection h with h'
          subst h'
          simp at hst
        · rw [if_neg hopt] at h
          by_cases hpk : parent.kind = NodeKind.element
          · rw [if_pos hpk] at h
            cases hrec : cssPathLoop parent rest false with
            | error e =>
              simp only [hrec] at h
              exact Except.noConfusion h
            | ok tailSteps =>
              simp only [hrec] at h
              injection h with h'
              subst h'
              cases tailSteps with
              | nil => simp at hst
              | cons b bs =>
                rw [show (step :: b :: bs).dropLast = step :: (b :: bs).dropLast
                  from rfl] at hst
                rcases List.mem_cons.mp hst with hst | hst
                · subst hst
                  cases hb : st.optimized with
                  | false => rfl
                  | true => exact absurd hb hopt
                · exact ih parent false (b :: bs) hrec st hst
          · rw [if_neg hpk] at h
            injection h with h'
            subst h'
            simp at hst

/-- C5: in every successfully built (root-first) path, every step in the
tail is non-optimized; hence any step with `optimized = true` is the first,
root-most, step, and no other step of the path is optimized. -/
theorem c5_optimized_is_first (node : DNode) (ancs : List (Nat × DNode))
    (steps : List DOMNodePathStep) (h : cssPath node ancs = .ok steps) :
    (∀ st ∈ steps.tail, st.optimized = false) ∧
    (∀ st ∈ steps, st.optimized = true → steps.head? = some st) := by
  have htail : ∀ st ∈ steps.tail, st.optimized = false := by
    intro st hst
    unfold cssPath at h
    by_cases he : node.kind ≠ NodeKind.element
    · rw [if_pos he] at h
      injection h with h'
      subst h'
      simp at hst
    · rw [if_neg he] at h
      cases hl : cssPathLoop node ancs true with
      | error e => rw [hl] at h; simp [Except.map] at h
      | ok l =>
        rw [hl] at h
        simp only [Except.map, Except.ok.injEq] at h
        subst h
        have hdl := cssPathLoop_dropLast_not_optimized ancs node true l hl
        rcases List.eq_nil_or_concat l with rfl | ⟨l', b, rfl⟩
        · simp at hst
        · rw [List.concat_eq_append, List.reverse_append,
            List.reverse_singleton, List.singleton_append, List.tail_cons] at hst
          refine hdl st ?_
          rw [List.concat_eq_append, List.dropLast_concat]
          exact List.mem_reverse.mp hst
  refine ⟨htail, ?_⟩
  intro st hst hopt
  cases steps with
  | nil => simp at hst
  | cons a l =>
    rcases List.mem_cons.mp hst with rfl | hst
    · rfl
    · exact absurd hopt (by simp [htail st hst])

/-- C5 (witness): for the scenario tree, the path is
`[body (optimized), div, p]`; the `div` step sits in the tail and is
non-optimized. -/
theorem c5_optimized_is_first_witness :
    cssPath exP2 exAncsP2 = .ok
      [⟨some "body", true⟩, ⟨some "div", false⟩, ⟨some "p", false⟩] ∧
    (⟨some "div", false⟩ : DOMNodePathStep).optimized = false :=
  ⟨rfl,
    (c5_optimized_is_first exP2 exAncsP2
      [⟨some "body", true⟩, ⟨some "div", false⟩, ⟨some "p", false⟩] rfl).1
      ⟨some "div", false⟩ (by decide)⟩

/-- Every `parentElement` chain has at least one node on it. -/
theorem one_le_elementDepth (node : DNode) (ancs : List (Nat × DNode)) :
    1 ≤ elementDepth node ancs := by
  cases ancs with
  | nil => exact Nat.le_refl 1
  | cons a rest =>
    obtain ⟨i, parent⟩ := a
    unfold elementDepth
    split
    · omega
    · omega

/-- C9: the ascent loop performs at most `elementDepth` iterations — every
iteration either stops (error, null value, optimized step, missing or
non-element parent) or moves the cursor one step up the parent-element
chain, which shrinks towards the root. -/
theorem c9_iterations_le_depth :
    ∀ (ancs : List (Nat × DNode)) (node : DNode) (isTarget : Bool),
      cssPathIters node ancs isTarget ≤ elementDepth node ancs := by
  intro ancs
  induction ancs with
  | nil =>
    intro node isTarget
    simp only [cssPathIters]
    split
    · exact one_le_elementDepth node []
    · split
      · exact one_le_elementDepth node []
      · split <;> exact one_le_elementDepth node []
  | cons a rest ih =>
    intro node isTarget
    obtain ⟨i, parent⟩ := a
    simp only [cssPathIters]
    split
    · exact one_le_elementDepth node ((i, parent) :: rest)
    · split
      · exact one_le_elementDepth node ((i, parent) :: rest)
      · split
        · exact one_le_elementDepth node ((i, parent) :: rest)
        · split
          · rename_i hpk
            have hd : elementDepth node ((i, parent) :: rest) =
                if parent.kind = NodeKind.element then 1 + elementDepth parent rest
                else 1 := rfl
            rw [hd, if_pos hpk]
            exact Nat.add_le_add_left (ih parent false) 1
          · exact one_le_elementDepth node ((i, parent) :: rest)

/-- The decoration test of the source (JavaScript truthiness on the `type`,
`id` and `class` attributes) coincides with the amended claim-C6 condition. -/
theorem c6_cond_eq (node : DNode) (isTarget : Bool) :
    (isTarget && strToLower node.tagName == "input" &&
      attrTruthy (node.getAttr "type") &&
      !attrTruthy (node.getAttr "id") &&
      !attrTruthy (node.getAttr "class")) = c6DecorationCond node isTarget := by
  unfold c6DecorationCond attrTruthy
  simp [bne]

/-- `inputTypeDecoration` written through the claim-C6 condition. -/
theorem inputTypeDecoration_eq_c6 (node : DNode) (isTarget : Bool) :
    inputTypeDecoration node isTarget =
      if c6DecorationCond node isTarget then
        "[type=\"" ++ (node.getAttr "type").getD "" ++ "\"]"
      else "" := by
  unfold inputTypeDecoration
  rw [c6_cond_eq]

/-- C6 (counterexample): a detached `<input type="text">` target — lower-cased
tag `input`, a `type` attribute, neither `id` nor `class` — satisfies every
condition of the claim, yet its step carries no `[type="..."]` decoration:
the orphan shortcut of `getOptimizedValue` emits the bare optimized `input`
before fragment construction is reached. -/
theorem c6_counterexample :
    strToLower exInputText.tagName = "input" ∧
    exInputText.getAttr "type" = some "text" ∧
    exInputText.getAttr "id" = none ∧
    exInputText.getAttr "class" = none ∧
    computeStep exInputText [] true = .ok ⟨some "input", true⟩ ∧
    "input".data.all (fun c => c != '[') = true :=
  ⟨rfl, rfl, rfl, rfl, rfl, by decide⟩

/-- C6 (amended): for every step built by the structural branch (the element
passed the optimized-shortcut check with `ok none`), the emitted fragment is
the lower-cased tag, then the `[type="<value>"]` decoration exactly when the
step is for the target node, the lower-cased tag is `input`, the `type`
attribute is non-empty, and the `id` and `class` attributes are each absent
or empty, then the mode suffix; in particular a non-target step never
carries the decoration. -/
theorem c6_type_decoration_iff (node parent : DNode) (selfIdx : Nat)
    (rest : List (Nat × DNode)) (isTarget : Bool)
    (helem : node.kind = NodeKind.element)
    (hopt : getOptimizedValue node (some parent) = .ok none) :
    computeStep node ((selfIdx, parent) :: rest) isTarget =
      .ok ⟨some (strToLower node.tagName ++
        ((if c6DecorationCond node isTarget then
            "[type=\"" ++ (node.getAttr "type").getD "" ++ "\"]"
          else "") ++ nthOrClassSuffix node parent selfIdx)), false⟩ := by
  simp only [computeStep, helem, List.head?_cons, Option.map_some', ite_not, hopt]
  cases hm : (getWritingMode node parent selfIdx).mode with
  | NTH_CHILD =>
    simp [hm, nthOrClassSuffix, inputTypeDecoration_eq_c6, String.append_assoc]
  | TAGNAME_AND_CLASSNAME =>
    simp [hm, nthOrClassSuffix, inputTypeDecoration_eq_c6]

/-- C6 (witness): the password input of the spec's fourth scenario receives
the decoration and the nth-child suffix: `input[type="password"]:nth-child(2)`. -/
theorem c6_type_decoration_iff_witness :
    computeStep exInputPassword [(1, exForm)] true =
      .ok ⟨some "input[type=\"password\"]:nth-child(2)", false⟩ := by
  rw [c6_type_decoration_iff exInputPassword exForm 1 [] true rfl rfl]
  rfl

/-- `elementChildrenFrom` distributes over append, shifting the index base. -/
theorem elementChildrenFrom_append (cs₁ cs₂ : List DNode) :
    ∀ k, elementChildrenFrom k (cs₁ ++ cs₂) =
      elementChildrenFrom k cs₁ ++ elementChildrenFrom (k + cs₁.length) cs₂ := by
  induction cs₁ with
  | nil => intro k; simp [elementChildrenFrom]
  | cons c cs ih =>
    intro k
    have heq : ∀ (l : List DNode), elementChildrenFrom k (c :: l) =
        if c.kind = NodeKind.element then (k, c) :: elementChildrenFrom (k + 1) l
        else elementChildrenFrom (k + 1) l := fun l => rfl
    have harith : k + 1 + cs.length = k + (c :: cs).length := by
      simp only [List.length_cons]
      omega
    rw [List.cons_append, heq (cs ++ cs₂), heq cs]
    by_cases hc : c.kind = NodeKind.element
    · rw [if_pos hc, if_pos hc, ih (k + 1), harith, List.cons_append]
    · rw [if_neg hc, if_neg hc, ih (k + 1), harith]

/-- Indices produced by `elementChildrenFrom k cs` lie in `[k, k + cs.length)`. -/
theorem elementChildrenFrom_mem_bounds :
    ∀ (cs : List DNode) (k : Nat) (x : Nat × DNode),
      x ∈ elementChildrenFrom k cs → k ≤ x.1 ∧ x.1 < k + cs.length := by
  intro cs
  induction cs with
  | nil => intro k x hx; simp [elementChildrenFrom] at hx
  | cons c cs ih =>
    intro k x hx
    simp only [elementChildrenFrom] at hx
    by_cases hc : c.kind = NodeKind.element
    · rw [if_pos hc] at hx
      rcases List.mem_cons.mp hx with rfl | hx
      · simp only [List.length_cons]
        omega
      · have := ih (k + 1) x hx
        simp only [List.length_cons]
        omega
    · rw [if_neg hc] at hx
      have := ih (k + 1) x hx
      simp only [List.length_cons]
      omega

/-- The element-children collection is as long as the element count. -/
theorem elementChildrenFrom_length :
    ∀ (cs : List DNode) (k : Nat),
      (elementChildrenFrom k cs).length = elemCount cs := by
  intro cs
  induction cs with
  | nil => intro k; rfl
  | cons c cs ih =>
    intro k
    simp only [elementChildrenFrom, elemCount]
    by_cases hc : c.kind = NodeKind.element
    · rw [if_pos hc, if_pos hc]
      simp [ih (k + 1)]
      omega
    · rw [if_neg hc, if_neg hc]
      simp [ih (k + 1)]

/-- Splitting `parent.children` around the element at `childNodes` index
`selfIdx`: it occurs exactly once, its index is unique in the collection,
and the entries before it are the earlier element children. -/
theorem children_decompose (parent : DNode) (selfIdx : Nat) (node : DNode)
    (h1 : parent.childNodes[selfIdx]? = some node)
    (h2 : node.kind = NodeKind.element) :
    ∃ pre post,
      parent.children = pre ++ (selfIdx, node) :: post ∧
      pre.length = elemCount (parent.childNodes.take selfIdx) ∧
      (∀ x ∈ pre, x.1 ≠ selfIdx) ∧ (∀ x ∈ post, x.1 ≠ selfIdx) := by
  have hlt : selfIdx < parent.childNodes.length := by
    by_contra hge
    rw [List.getElem?_eq_none (Nat.le_of_not_lt hge)] at h1
    exact Option.noConfusion h1
  have hget : parent.childNodes[selfIdx] = node := by
    have := List.getElem?_eq_getElem hlt
    rw [h1] at this
    exact (Option.some.injEq _ _).mp this.symm
  have hdecomp : parent.childNodes =
      parent.childNodes.take selfIdx ++ node :: parent.childNodes.drop (selfIdx + 1) := by
    conv_lhs => rw [← List.take_append_drop selfIdx parent.childNodes]
    rw [List.drop_eq_getElem_cons hlt, hget]
  have hlen : (parent.childNodes.take selfIdx).length = selfIdx := by
    rw [List.length_take]
    omega
  refine ⟨elementChildrenFrom 0 (parent.childNodes.take selfIdx),
    elementChildrenFrom (selfIdx + 1) (parent.childNodes.drop (selfIdx + 1)),
    ?_, elementChildrenFrom_length _ 0, ?_, ?_⟩
  · unfold DNode.children
    conv_lhs => rw [hdecomp]
    rw [elementChildrenFrom_append, hlen, Nat.zero_add]
    rw [show elementChildrenFrom selfIdx (node :: parent.childNodes.drop (selfIdx + 1)) =
        (selfIdx, node) :: elementChildrenFrom (selfIdx + 1)
          (parent.childNodes.drop (selfIdx + 1)) by
      rw [show elementChildrenFrom selfIdx (node :: parent.childNodes.drop (selfIdx + 1)) =
          if node.kind = NodeKind.element then
            (selfIdx, node) :: elementChildrenFrom (selfIdx + 1)
              (parent.childNodes.drop (selfIdx + 1))
          else elementChildrenFrom (selfIdx + 1)
              (parent.childNodes.drop (selfIdx + 1)) from rfl]
      rw [if_pos h2]]
  · intro x hx
    have hb := elementChildrenFrom_mem_bounds _ 0 x hx
    rw [hlen] at hb
    omega
  · intro x hx
    have hb := elementChildrenFrom_mem_bounds _ (selfIdx + 1) x hx
    omega

/-- One unfolding of the sibling scan on a cons cell (the loop guard, the
identity test, and the body's branch cascade). -/
theorem siblingScan_cons_eq (nodeName : String) (selfIdx j : Nat) (s : DNode)
    (rest : List (Nat × DNode)) (eIdx : Int) (needs : Bool) (own : Int)
    (remaining : List String) :
    siblingScan nodeName selfIdx ((j, s) :: rest) eIdx needs own remaining =
      if own ≠ -1 ∧ needs = true then (needs, own, remaining)
      else if j = selfIdx then
        siblingScan nodeName selfIdx rest (eIdx + 1) needs (eIdx + 1) remaining
      else if needs = true then
        siblingScan nodeName selfIdx rest (eIdx + 1) needs own remaining
      else if strToLower s.tagName ≠ nodeName then
        siblingScan nodeName selfIdx rest (eIdx + 1) needs own remaining
      else if remaining = [] then
        siblingScan nodeName selfIdx rest (eIdx + 1) true own remaining
      else
        siblingScan nodeName selfIdx rest (eIdx + 1)
          (siblingClassScan remaining (prefixedElementClassNames s)).2 own
          (siblingClassScan remaining (prefixedElementClassNames s)).1 := rfl

/-- Once (or while) the own index is set, scanning entries whose index is
never the self index leaves `ownIndex` untouched. -/
theorem siblingScan_own_of_not_mem (nodeName : String) (selfIdx : Nat) :
    ∀ (sibs : List (Nat × DNode)) (eIdx : Int) (needs : Bool) (own : Int)
      (remaining : List String),
      (∀ x ∈ sibs, x.1 ≠ selfIdx) →
      (siblingScan nodeName selfIdx sibs eIdx needs own remaining).2.1 = own := by
  intro sibs
  induction sibs with
  | nil => intro eIdx needs own remaining hmem; rfl
  | cons a rest ih =>
    intro eIdx needs own remaining hmem
    obtain ⟨j, s⟩ := a
    have hj : j ≠ selfIdx := hmem (j, s) (List.mem_cons_self _ _)
    have hrest : ∀ x ∈ rest, x.1 ≠ selfIdx :=
      fun x hx => hmem x (List.mem_cons_of_mem _ hx)
    rw [siblingScan_cons_eq]
    by_cases hg : own ≠ -1 ∧ needs = true
    · rw [if_pos hg]
    · rw [if_neg hg, if_neg hj]
      by_cases hn : needs = true
      · rw [if_pos hn]
        exact ih _ _ _ _ hrest
      · rw [if_neg hn]
        by_cases ht : strToLower s.tagName ≠ nodeName
        · rw [if_pos ht]
          exact ih _ _ _ _ hrest
        · rw [if_neg ht]
          by_cases hr : remaining = []
          · rw [if_pos hr]
            exact ih _ _ _ _ hrest
          · rw [if_neg hr]
            exact ih _ _ _ _ hrest

/-- The scan sets `ownIndex` to the 1-shifted element index of the (unique)
entry holding the self index:  `eIdx + pre.length + 1` when the collection
is `pre ++ (selfIdx, _) :: post` and neither side mentions `selfIdx`. -/
theorem siblingScan_own_finds (nodeName : String) (selfIdx : Nat) (nm : DNode) :
    ∀ (pre post : List (Nat × DNode)) (eIdx : Int) (needs : Bool)
      (remaining : List String),
      (∀ x ∈ pre, x.1 ≠ selfIdx) → (∀ x ∈ post, x.1 ≠ selfIdx) →
      (siblingScan nodeName selfIdx (pre ++ (selfIdx, nm) :: post) eIdx needs (-1)
        remaining).2.1 = eIdx + pre.length + 1 := by
  intro pre
  induction pre with
  | nil =>
    intro post eIdx needs remaining hpre hpost
    rw [List.nil_append, siblingScan_cons_eq]
    rw [if_neg (by simp)]
    rw [if_pos rfl]
    rw [siblingScan_own_of_not_mem nodeName selfIdx post _ _ _ _ hpost]
    simp
  | cons a pre ih =>
    intro post eIdx needs remaining hpre hpost
    obtain ⟨j, s⟩ := a
    have hj : j ≠ selfIdx := hpre (j, s) (List.mem_cons_self _ _)
    have hpre' : ∀ x ∈ pre, x.1 ≠ selfIdx :=
      fun x hx => hpre x (List.mem_cons_of_mem _ hx)
    have harith : eIdx + 1 + (pre.length : Int) + 1 =
        eIdx + (((j, s) :: pre).length : Int) + 1 := by
      simp only [List.length_cons]
      push_cast
      omega
    rw [List.cons_append, siblingScan_cons_eq]
    rw [if_neg (by simp)]
    rw [if_neg hj]
    by_cases hn : needs = true
    · rw [if_pos hn, ih post (eIdx + 1) _ _ hpre' hpost, harith]
    · rw [if_neg hn]
      by_cases ht : strToLower s.tagName ≠ nodeName
      · rw [if_pos ht, ih post (eIdx + 1) _ _ hpre' hpost, harith]
      · rw [if_neg ht]
        by_cases hr : remaining = []
        · rw [if_pos hr, ih post (eIdx + 1) _ _ hpre' hpost, harith]
        · rw [if_neg hr, ih post (eIdx + 1) _ _ hpre' hpost, harith]

/-- The `ownIndex` computed by `getWritingMode` is the zero-based position
of the element among its parent's element children. -/
theorem getWritingMode_index (node parent : DNode) (selfIdx : Nat)
    (h1 : parent.childNodes[selfIdx]? = some node)
    (h2 : node.kind = NodeKind.element) :
    (getWritingMode node parent selfIdx).index =
      (elemCount (parent.childNodes.take selfIdx) : Int) := by
  obtain ⟨pre, post, hchildren, hlen, hpre, hpost⟩ :=
    children_decompose parent selfIdx node h1 h2
  have hw : (getWritingMode node parent selfIdx).index =
      (siblingScan (strToLower node.tagName) selfIdx parent.children (-1) false (-1)
        (prefixedElementClassNames node)).2.1 := rfl
  rw [hw, hchildren,
    siblingScan_own_finds (strToLower node.tagName) selfIdx node pre post (-1) false
      (prefixedElementClassNames node) hpre hpost, hlen]
  omega

/-- C3: whenever a structural step is emitted in NTH_CHILD mode, the `k` in
the appended `:nth-child(k)` equals the element's zero-based position among
its parent's element children (non-element children excluded) plus 1 — also
when the sibling scan short-circuits after `needsNthChild` becomes true. -/
theorem c3_nth_child_index (node parent : DNode) (selfIdx : Nat)
    (rest : List (Nat × DNode)) (isTarget : Bool)
    (h1 : parent.childNodes[selfIdx]? = some node)
    (h2 : node.kind = NodeKind.element)
    (hopt : getOptimizedValue node (some parent) = .ok none)
    (hm : (getWritingMode node parent selfIdx).mode = WritingMode.NTH_CHILD) :
    computeStep node ((selfIdx, parent) :: rest) isTarget =
      .ok ⟨some (strToLower node.tagName ++ inputTypeDecoration node isTarget ++
        ":nth-child(" ++
        toString ((elemCount (parent.childNodes.take selfIdx) : Int) + 1) ++ ")"),
        false⟩ := by
  simp only [computeStep, h2, List.head?_cons, Option.map_some', ite_not, hopt]
  simp [hm, getWritingMode_index node parent selfIdx h1 h2, String.append_assoc]

/-- C3 (witness): the third `<p>` of the scenario tree (no classes, two
same-tag siblings, element position 2) gets `p:nth-child(3)`. -/
theorem c3_nth_child_index_witness :
    exDiv.childNodes[2]? = some exP3 ∧
    (getWritingMode exP3 exDiv 2).mode = WritingMode.NTH_CHILD ∧
    computeStep exP3 [(2, exDiv)] false = .ok ⟨some "p:nth-child(3)", false⟩ := by
  refine ⟨rfl, rfl, ?_⟩
  rw [c3_nth_child_index exP3 exDiv 2 [] false rfl rfl rfl rfl]
  rfl
